import Mathlib

/-!
# Verification of the sneakers database build pipeline

This file is a shallow embedding of `sneakers_db_build.py` together with
proofs about the claims made in the natural-language specification of that
program.

Modelling conventions:

* Python strings are modelled as `List Char`.  `str.strip()` is modelled by
  `py_strip` (dropping whitespace on both ends, using `Char.isWhitespace`),
  `str.upper()` by `py_upper` (mapping the ASCII letters `a`-`z` to `A`-`Z`),
  and `str.rstrip("S")` by `py_rstrip_s` (dropping every trailing `'S'`).
* A raw catalog record (`sneaker` dictionary) is the structure `RawSneaker`;
  the sanitized row dictionary built by the program is `SneakerData`, where a
  key that may be absent from the Python dictionary is an `Option` field.
* Python exceptions raised while normalizing a record are the `NormError`
  inductive; fallible functions return `Except`.
* The sqlite connection is modelled by `DB`: `committed` is the durably
  committed table content and `pending` the statements executed in the
  current open transaction (Python's sqlite3 module begins an implicit
  transaction on `INSERT` and keeps uncommitted statements in the open
  transaction across a caught exception; they are committed by the next
  `commit()` on the same connection).  Constraints coming from the external
  DDL script (`create_tables.sql` is not part of the sources) are not
  modelled.
* The image/link flattening and the 360-image child rows are orthogonal to
  every claim under consideration and are not part of the embedding.
-/

/-! ## String primitives -/

/-- String literals used by the program, as `List Char`. -/
def sentinel_chars : List Char := "0001-01-01".data

def mens_chars : List Char := "MENS".data

def womens_chars : List Char := "WOMENS".data

def women_chars : List Char := "WOMEN".data

def men_chars : List Char := "MEN".data

def zerozero_chars : List Char := "00".data

def twenty_chars : List Char := "20".data

def json_ext_chars : List Char := ".json".data

/-- Model of Python `str.strip()` on the left end. -/
def py_lstrip (l : List Char) : List Char := l.dropWhile (fun c => c.isWhitespace)

/-- Model of Python `str.strip()` on the right end. -/
def py_rstrip (l : List Char) : List Char := (py_lstrip l.reverse).reverse

/-- Model of Python `str.strip()`: drop whitespace from both ends. -/
def py_strip (l : List Char) : List Char := py_rstrip (py_lstrip l)

/-- Model of Python `str.upper()` on one character (ASCII range). -/
def py_upper_char (c : Char) : Char :=
  if 97 ≤ c.toNat ∧ c.toNat ≤ 122 then Char.ofNat (c.toNat - 32) else c

/-- Model of Python `str.upper()`. -/
def py_upper (l : List Char) : List Char := l.map py_upper_char

/-- Model of Python `str.rstrip("S")`: drop every trailing `'S'`. -/
def py_rstrip_s (l : List Char) : List Char :=
  (l.reverse.dropWhile (fun c => c == 'S')).reverse

/-! ## Record normalization (`get_basically_sanitized_sneaker_data`) -/

/-- Gender normalization performed inside
`get_basically_sanitized_sneaker_data` (lines 299-304 of the source): the
value is stripped like every string field, uppercased, and if it ends with
`"MENS"` the trailing `"S"` is removed (`rstrip("S")`). -/
def normalize_gender (v : List Char) : List Char :=
  let u := py_upper (py_strip v)
  if mens_chars.isSuffixOf u then py_rstrip_s u else u

/-- A raw catalog record after the closed-schema assertion, with the nested
`image`/`links` documents and the discarded `id` field left out (they play no
role in any claim).  Integer-valued fields are `Int`, everything else is a
Python string. -/
structure RawSneaker where
  brand : List Char
  gender : List Char
  estimatedMarketValue : Int
  releaseYear : Int
  story : List Char
  colorway : List Char
  silhouette : List Char
  sku : List Char
  retailPrice : Int
  name : List Char
  releaseDate : List Char
deriving DecidableEq, Repr

/-- Exceptions raised while normalizing one record. -/
inductive NormError where
  | unknownBrand
  | unknownGender
  | dateFormatError
  | emptySku
deriving DecidableEq, Repr

instance except_dec_eq {ε α : Type} [DecidableEq ε] [DecidableEq α] :
    DecidableEq (Except ε α) := fun a b =>
  match a, b with
  | .error e1, .error e2 =>
    if h : e1 = e2 then isTrue (by rw [h])
    else isFalse (by intro hc; injection hc; contradiction)
  | .error e1, .ok a2 => isFalse (by intro hc; exact Except.noConfusion hc)
  | .ok a1, .error e2 => isFalse (by intro hc; exact Except.noConfusion hc)
  | .ok a1, .ok a2 =>
    if h : a1 = a2 then isTrue (by rw [h])
    else isFalse (by intro hc; injection hc; contradiction)

/-- The sanitized row dictionary.  An `Option` field models a key that may be
absent from the Python dictionary. -/
structure SneakerData where
  brand : List Char
  gender : List Char
  estimatedMarketValue : Option Int
  releaseYear : Option Int
  story : List Char
  colorway : List Char
  silhouette : List Char
  sku : List Char
  retailPrice : Option Int
  name : List Char
  releaseDate : Option (List Char)
deriving DecidableEq, Repr

/-- Model of `get_basically_sanitized_sneaker_data` (lines 286-312): integer
fields (`releaseYear`, `estimatedMarketValue`, `retailPrice`) are kept only
when strictly positive; string fields are stripped; `gender` is normalized
and checked against the gender reference list, `brand` is uppercased and
checked against the brand reference list; an unknown value raises.  The
Python loop follows the record dictionary's iteration order, which is the
key order of the closed schema assertion; we accordingly check `brand`
before `gender`. -/
def get_basically_sanitized_sneaker_data (genders brands : List (List Char))
    (s : RawSneaker) : Except NormError SneakerData :=
  let b := py_upper (py_strip s.brand)
  let g := normalize_gender s.gender
  if b ∉ brands then .error .unknownBrand
  else if g ∉ genders then .error .unknownGender
  else .ok
    { brand := b
      gender := g
      estimatedMarketValue :=
        if 0 < s.estimatedMarketValue then some s.estimatedMarketValue else none
      releaseYear := if 0 < s.releaseYear then some s.releaseYear else none
      story := py_strip s.story
      colorway := py_strip s.colorway
      silhouette := py_strip s.silhouette
      sku := py_strip s.sku
      retailPrice := if 0 < s.retailPrice then some s.retailPrice else none
      name := py_strip s.name
      releaseDate := some (py_strip s.releaseDate) }

/-- The row produced by `get_basically_sanitized_sneaker_data` when both
reference checks pass. -/
def san_data (s : RawSneaker) : SneakerData :=
  { brand := py_upper (py_strip s.brand)
    gender := normalize_gender s.gender
    estimatedMarketValue :=
      if 0 < s.estimatedMarketValue then some s.estimatedMarketValue else none
    releaseYear := if 0 < s.releaseYear then some s.releaseYear else none
    story := py_strip s.story
    colorway := py_strip s.colorway
    silhouette := py_strip s.silhouette
    sku := py_strip s.sku
    retailPrice := if 0 < s.retailPrice then some s.retailPrice else none
    name := py_strip s.name
    releaseDate := some (py_strip s.releaseDate) }

/-! ## Date/year reconciliation (`fix_date_and_year_in_sneaker_data`) -/

/-- Model of the regex `^\d\d\d\d-\d\d-\d\d$` of line 381 (`\d` as the
decimal digit code points 48-57). -/
def is_digit_char (c : Char) : Bool := decide (48 ≤ c.toNat ∧ c.toNat ≤ 57)

/-- `is_date_format l` holds iff `l` matches `^\d\d\d\d-\d\d-\d\d$`. -/
def is_date_format : List Char → Bool
  | [y1, y2, y3, y4, h1, m1, m2, h2, d1, d2] =>
    is_digit_char y1 && is_digit_char y2 && is_digit_char y3 && is_digit_char y4 &&
    h1 == '-' && is_digit_char m1 && is_digit_char m2 && h2 == '-' &&
    is_digit_char d1 && is_digit_char d2
  | _ => false

/-- The century rewrite of lines 382-384: a date starting with `"00"` gets
its first two characters replaced by `"20"`. -/
def rewrite_date (rd : List Char) : List Char :=
  if rd.take 2 = zerozero_chars then twenty_chars ++ rd.drop 2 else rd

/-- `int(rd.split("-")[0])` of line 385: the decimal value of the characters
before the first `'-'`. -/
def year_of (rd : List Char) : Int :=
  (((rd.takeWhile (fun c => c != '-')).foldl
    (fun a c => a * 10 + (c.toNat - 48)) 0 : Nat) : Int)

/-- The two log events the reconciliation can emit: the info log when the
year is filled from the date (line 387) and the error log when the repaired
year disagrees with the date (line 397). -/
structure FixLog where
  filledFromDate : Bool
  mismatch : Bool
deriving DecidableEq, Repr

/-- Lines 400-403: after reconciliation, `releaseDate` is written back only
when (the possibly rewritten) `rd` is truthy and `releaseYear` only when `ry`
is truthy (not `None` and nonzero). -/
def set_date_year (d : SneakerData) (rd : List Char) (ry : Option Int) : SneakerData :=
  { d with
    releaseDate := if rd = [] then none else some rd
    releaseYear :=
      match ry with
      | none => none
      | some y => if y = 0 then none else some y }

/-- Model of `fix_date_and_year_in_sneaker_data` (lines 370-403).  `rd` is
the popped, stripped `releaseDate`; `ry` the popped `releaseYear`.  When `rd`
is truthy and differs from the sentinel `"0001-01-01"`, the date must match
the date regex (otherwise the assert raises), the `"00"` century prefix is
rewritten to `"20"`, and the year is filled from the date (when `ry` is
`None` or `0`) or repaired by `+2000` (when `ry < 99`), logging a mismatch
when the result differs from the date's year. -/
def fix_date_and_year_in_sneaker_data (d : SneakerData) :
    Except NormError (SneakerData × FixLog) :=
  let rd := py_strip (d.releaseDate.getD [])
  if rd ≠ [] ∧ rd ≠ sentinel_chars then
    if is_date_format rd then
      let rd2 := rewrite_date rd
      let py : Int := year_of rd2
      match d.releaseYear with
      | none => .ok (set_date_year d rd2 (some py), ⟨true, false⟩)
      | some y =>
        if y = 0 then .ok (set_date_year d rd2 (some py), ⟨true, false⟩)
        else
          let y2 := if y < 99 then y + 2000 else y
          .ok (set_date_year d rd2 (some y2), ⟨false, y2 != py⟩)
    else .error .dateFormatError
  else .ok (set_date_year d rd d.releaseYear, ⟨false, false⟩)

/-! ## Inserting one record (`insert_sneaker`) -/

/-- Model of the record-level part of `insert_sneaker` (lines 248-269): the
`sku` must be non-empty (line 259), then the record is sanitized and its
date/year reconciled; any failure raises.  The returned row (plus the log
events) is what gets inserted into the `sneakers` table. -/
def insert_sneaker (genders brands : List (List Char)) (s : RawSneaker) :
    Except NormError (SneakerData × FixLog) :=
  if s.sku = [] then .error .emptySku
  else
    match get_basically_sanitized_sneaker_data genders brands s with
    | .error e => .error e
    | .ok d => fix_date_and_year_in_sneaker_data d

/-! ## The database connection and the page loop -/

/-- The sqlite connection: `committed` rows are durable, `pending` rows were
inserted in the currently open implicit transaction and become durable at
the next `commit()`. -/
structure DB where
  committed : List SneakerData
  pending : List SneakerData
deriving DecidableEq, Repr

/-- `cursor.execute("INSERT INTO sneakers ...")`: the row joins the open
transaction. -/
def db_insert (db : DB) (row : SneakerData) : DB :=
  { db with pending := db.pending ++ [row] }

/-- `self.db.commit()`: the open transaction becomes durable. -/
def db_commit (db : DB) : DB :=
  { committed := db.committed ++ db.pending, pending := [] }

/-- The final artifact: `load_fts` ends with a `commit()` and `savedb` backs
up the connection, so everything still pending is committed. -/
def final_store (db : DB) : List SneakerData :=
  (db_commit db).committed

/-- A page-level failure: either the `api.sneakers` call raised, or some
record raised while being inserted. -/
inductive PageError where
  | fetchFailed
  | recordFailed (e : NormError)
deriving DecidableEq, Repr

/-- The `for sneaker in data["results"]` loop of `load_sneakers_page` (lines
212-213): records are inserted one by one; the first exception aborts the
loop, leaving the earlier inserts in the open transaction. -/
def insert_page_records (genders brands : List (List Char)) :
    List RawSneaker → DB → DB × Option NormError
  | [], db => (db, none)
  | r :: rest, db =>
    match insert_sneaker genders brands r with
    | .error e => (db, some e)
    | .ok rowlog => insert_page_records genders brands rest (db_insert db rowlog.1)

/-- Model of `load_sneakers_page` (lines 204-214).  `none` as page data
models `api.sneakers` raising.  On success the page's rows are committed; on
failure the exception propagates and nothing is committed (nor rolled
back). -/
def load_sneakers_page (genders brands : List (List Char))
    (pageData : Option (List RawSneaker)) (db : DB) : DB × Option PageError :=
  match pageData with
  | none => (db, some .fetchFailed)
  | some rs =>
    match insert_page_records genders brands rs db with
    | (db2, none) => (db_commit db2, none)
    | (db2, some e) => (db2, some (.recordFailed e))

/-- The body of the page loop of `load_sneakers_safely` (lines 197-202): the
page is processed against the accumulated connection state; an exception is
caught and logged with the page number and its cause. -/
def page_step (genders brands : List (List Char))
    (fetch : Nat → Option (List RawSneaker))
    (acc : DB × List (Nat × PageError)) (page : Nat) :
    DB × List (Nat × PageError) :=
  match load_sneakers_page genders brands (fetch page) acc.1 with
  | (db2, none) => (db2, acc.2)
  | (db2, some e) => (db2, acc.2 ++ [(page, e)])

/-- Model of `load_sneakers_safely` (lines 192-202): pages `0..last_page_num`
are processed in order; an exception from a page is caught and logged with
the page number and its cause, and the loop continues.  The returned list is
the log of `ERROR page=... error=...` lines. -/
def load_sneakers_safely (genders brands : List (List Char))
    (fetch : Nat → Option (List RawSneaker)) (last_page_num : Nat) (db : DB) :
    DB × List (Nat × PageError) :=
  (List.range (last_page_num + 1)).foldl (page_step genders brands fetch) (db, [])

/-- The rows a page actually contributes to the open transaction: all of its
rows when every record normalizes, and the prefix of rows before the first
failing record otherwise. -/
def ok_prefix_rows (genders brands : List (List Char)) :
    List RawSneaker → List SneakerData
  | [] => []
  | r :: rest =>
    match insert_sneaker genders brands r with
    | .error _ => []
    | .ok rowlog => rowlog.1 :: ok_prefix_rows genders brands rest

/-- The first exception raised while inserting a page's records, if any. -/
def first_record_error (genders brands : List (List Char)) :
    List RawSneaker → Option NormError
  | [] => none
  | r :: rest =>
    match insert_sneaker genders brands r with
    | .error e => some e
    | .ok _ => first_record_error genders brands rest

/-- The rows one page contributes to the store. -/
def page_inserted_rows (genders brands : List (List Char)) :
    Option (List RawSneaker) → List SneakerData
  | none => []
  | some rs => ok_prefix_rows genders brands rs

/-- The exception one page raises, if any. -/
def page_error (genders brands : List (List Char)) :
    Option (List RawSneaker) → Option PageError
  | none => some .fetchFailed
  | some rs => (first_record_error genders brands rs).map .recordFailed

/-- The rows a run over the given pages contributes to the store. -/
def pages_rows (genders brands : List (List Char))
    (fetch : Nat → Option (List RawSneaker)) : List Nat → List SneakerData
  | [] => []
  | p :: rest =>
    page_inserted_rows genders brands (fetch p) ++
      pages_rows genders brands fetch rest

/-- The error log a run over the given pages produces. -/
def pages_log (genders brands : List (List Char))
    (fetch : Nat → Option (List RawSneaker)) : List Nat → List (Nat × PageError)
  | [] => []
  | p :: rest =>
    match page_error genders brands (fetch p) with
    | none => pages_log genders brands fetch rest
    | some e => (p, e) :: pages_log genders brands fetch rest

/-! ## The cache key (`Api.cache_path`) -/

/-- Lexicographic order on Python strings by code point, as used by
`sorted(querystring.keys())`. -/
def str_le : List Char → List Char → Bool
  | [], _ => true
  | _ :: _, [] => false
  | a :: as, b :: bs =>
    if a.toNat < b.toNat then true
    else if b.toNat < a.toNat then false
    else str_le as bs

/-- Comparison of querystring entries by key. -/
def key_le (p q : List Char × List Char) : Prop := str_le p.1 q.1 = true

instance key_le_dec : DecidableRel key_le := fun p q =>
  inferInstanceAs (Decidable (str_le p.1 q.1 = true))

/-- `sorted(querystring.keys())` applied to the entry list: sort the entries
by key. -/
def key_sort (qs : List (List Char × List Char)) : List (List Char × List Char) :=
  List.insertionSort key_le qs

/-- One `f"_{key}_{value}"` fragment of the cache file name (line 58). -/
def entry_chars (p : List Char × List Char) : List Char :=
  '_' :: (p.1 ++ '_' :: p.2)

/-- The concatenation of all querystring fragments. -/
def entries_chars : List (List Char × List Char) → List Char
  | [] => []
  | p :: rest => entry_chars p ++ entries_chars rest

/-- Model of `Api.cache_path` (lines 47-59): the cache file name
`endpoint` + `"_key_value"` for each key in sorted order + `".json"`.  The
constant cache directory is omitted; two calls collide iff their file names
coincide. -/
def cache_path (endpoint : List Char) (qs : List (List Char × List Char)) : List Char :=
  endpoint ++ entries_chars (key_sort qs) ++ json_ext_chars

/-! ## Concrete data used by witnesses and counterexamples -/

def nike_chars : List Char := "NIKE".data

def nike_raw : List Char := "Nike".data

def kids_chars : List Char := "Kids".data

def sku1_chars : List Char := "SKU1".data

def sku2_chars : List Char := "SKU2".data

def sku3_chars : List Char := "SKU3".data

def date_2015 : List Char := "2015-03-01".data

def date_0099 : List Char := "0099-05-01".data

def date_2099 : List Char := "2099-05-01".data

def ep_a : List Char := "a".data

def ep_abc : List Char := "a_b_c".data

def key_b : List Char := "b".data

def val_c : List Char := "c".data

def ep_sneakers : List Char := "sneakers".data

def key_limit : List Char := "limit".data

def key_page : List Char := "page".data

def val_100 : List Char := "100".data

def val_0 : List Char := "0".data

/-- The gender reference list used in concrete runs. -/
def genders_ref : List (List Char) := [men_chars]

/-- The brand reference list used in concrete runs. -/
def brands_ref : List (List Char) := [nike_chars]

/-- A record that normalizes successfully (gender `"MENS"`, year 15,
date `"2015-03-01"`). -/
def raw_ok : RawSneaker :=
  ⟨nike_raw, mens_chars, 120, 15, [], [], [], sku1_chars, 0, [], date_2015⟩

/-- A record whose gender is unknown: it raises during sanitization. -/
def raw_bad : RawSneaker :=
  ⟨nike_raw, kids_chars, 10, 2015, [], [], [], sku2_chars, 10, [], date_2015⟩

/-- A second successfully normalizing record, on page 1. -/
def raw_ok2 : RawSneaker :=
  ⟨nike_raw, men_chars, 5, 2015, [], [], [], sku3_chars, 5, [], date_2015⟩

/-- The normalized row of `raw_ok`. -/
def row_ok : SneakerData :=
  ⟨nike_chars, men_chars, some 120, some 2015, [], [], [], sku1_chars, none, [],
    some date_2015⟩

/-- The normalized row of `raw_ok2`. -/
def row_ok2 : SneakerData :=
  ⟨nike_chars, men_chars, some 5, some 2015, [], [], [], sku3_chars, some 5, [],
    some date_2015⟩

/-- A record with non-positive `estimatedMarketValue` and `retailPrice`. -/
def raw_c7 : RawSneaker :=
  ⟨nike_raw, mens_chars, -5, 2015, [], [], [], sku1_chars, 0, [], date_2015⟩

/-- A record with a negative `releaseYear` and a valid `releaseDate`. -/
def raw_c10 : RawSneaker :=
  ⟨nike_raw, mens_chars, 10, -3, [], [], [], sku1_chars, 10, [], date_2015⟩

/-- A sanitized row carrying the sentinel release date `"0001-01-01"`. -/
def data_sentinel : SneakerData :=
  ⟨nike_chars, men_chars, none, none, [], [], [], sku1_chars, none, [],
    some sentinel_chars⟩

/-- A sanitized row carrying the century-truncated date `"0099-05-01"`. -/
def data_0099 : SneakerData :=
  ⟨nike_chars, men_chars, none, none, [], [], [], sku1_chars, none, [],
    some date_0099⟩

/-- The page contents of the two-page counterexample run: page 0 holds a good
record followed by a failing one, page 1 holds a good record. -/
def fetch_ce : Nat → Option (List RawSneaker) :=
  fun n => if n = 0 then some [raw_ok, raw_bad] else some [raw_ok2]

/-! ## Predicates used by the theorems -/

/-- A string that carries no whitespace at either end (the state after
`strip()`). -/
def no_ws_ends (l : List Char) : Prop :=
  (∀ c, l.head? = some c → c.isWhitespace = false) ∧
  (∀ c, l.getLast? = some c → c.isWhitespace = false)

/-- A querystring whose keys and values contain no underscore (true of every
call the program makes: endpoints `brands`/`genders`/`sneakers`, keys
`limit`/`page`, integer values). -/
def us_free (l : List (List Char × List Char)) : Prop :=
  ∀ p ∈ l, '_' ∉ p.1 ∧ '_' ∉ p.2

instance us_free_dec (l : List (List Char × List Char)) : Decidable (us_free l) :=
  inferInstanceAs (Decidable (∀ p ∈ l, '_' ∉ p.1 ∧ '_' ∉ p.2))

/-! ## Pagination (`load_sneakers`) -/

/-- One response of the `sneakers` endpoint. -/
structure PageResponse where
  count : Nat
  results : List RawSneaker
deriving Repr

/-- `math.ceil(count / self.page_limit) - 1` of line 164. -/
def last_page_num (count page_limit : Nat) : Int :=
  ⌈(count : ℚ) / (page_limit : ℚ)⌉ - 1

/-- Model of `load_sneakers` (lines 153-170) in its default sequential mode:
page 0 is fetched first to learn the total count, the last page number is
computed from it, and pages `0..last_page_num` are processed in order (the
repeated fetch of page 0 hits the memoized/cached API).  The result is the
list of processed pages with their responses. -/
def load_sneakers (api : Nat → PageResponse) (page_limit : Nat) :
    List (Nat × PageResponse) :=
  let count := (api 0).count
  (List.range (last_page_num count page_limit + 1).toNat).map
    (fun p => (p, api p))

/-- A constant API returning a count of 250 and no results. -/
def api_const : Nat → PageResponse := fun _ => ⟨250, []⟩

/-! ## Character-level lemmas -/

theorem upper_char_shift (m : Nat) (h1 : 65 ≤ m) (h2 : m ≤ 90) :
    (Char.ofNat m).toNat = m ∧ (Char.ofNat m).isWhitespace = false := by
  interval_cases m <;> decide

theorem char_eq_of_toNat_eq {a b : Char} (h : a.toNat = b.toNat) : a = b :=
  Char.ext (UInt32.ext h)

theorem py_upper_char_idem (c : Char) :
    py_upper_char (py_upper_char c) = py_upper_char c := by
  by_cases h : 97 ≤ c.toNat ∧ c.toNat ≤ 122
  · have hm := upper_char_shift (c.toNat - 32) (by omega) (by omega)
    simp only [py_upper_char, if_pos h, hm.1]
    rw [if_neg (by omega)]
  · simp only [py_upper_char, if_neg h]

theorem isWhitespace_eq_false_of_ge (c : Char) (h : 97 ≤ c.toNat) :
    c.isWhitespace = false := by
  have h1 : c ≠ ' ' := by intro e; subst e; exact absurd h (by decide)
  have h2 : c ≠ '\t' := by intro e; subst e; exact absurd h (by decide)
  have h3 : c ≠ '\r' := by intro e; subst e; exact absurd h (by decide)
  have h4 : c ≠ '\n' := by intro e; subst e; exact absurd h (by decide)
  simp [Char.isWhitespace, h1, h2, h3, h4]

theorem py_upper_char_ws (c : Char) :
    (py_upper_char c).isWhitespace = c.isWhitespace := by
  by_cases h : 97 ≤ c.toNat ∧ c.toNat ≤ 122
  · have hm := upper_char_shift (c.toNat - 32) (by omega) (by omega)
    simp only [py_upper_char, if_pos h]
    rw [hm.2, isWhitespace_eq_false_of_ge c h.1]
  · simp only [py_upper_char, if_neg h]

/-! ## Strip lemmas -/

theorem dw_head_not {α : Type} (p : α → Bool) :
    ∀ {l : List α} {c : α}, (l.dropWhile p).head? = some c → p c = false := by
  intro l
  induction l with
  | nil => intro c h; simp [List.dropWhile] at h
  | cons a t ih =>
    intro c h
    by_cases hp : p a
    · rw [List.dropWhile_cons, if_pos hp] at h
      exact ih h
    · rw [List.dropWhile_cons, if_neg hp] at h
      have : a = c := by simpa using h
      subst this
      simpa using hp

theorem dw_self {α : Type} (p : α → Bool) (l : List α)
    (h : ∀ c, l.head? = some c → p c = false) : l.dropWhile p = l := by
  cases l with
  | nil => rfl
  | cons a t =>
    have ha := h a rfl
    rw [List.dropWhile_cons, if_neg (by simp [ha])]

theorem head?_of_prefix {α : Type} {l m : List α} (h : l <+: m) (hne : l ≠ []) :
    m.head? = l.head? := by
  obtain ⟨t, rfl⟩ := h
  cases l with
  | nil => exact absurd rfl hne
  | cons a s => rfl

theorem py_strip_no_ws (l : List Char) : no_ws_ends (py_strip l) := by
  constructor
  · intro c hc
    have hpre : py_strip l <+: py_lstrip l := by
      rw [py_strip, py_rstrip, py_lstrip]
      have hs : ((py_lstrip l).reverse.dropWhile (fun c => c.isWhitespace)).reverse <+:
          (py_lstrip l).reverse.reverse :=
        List.reverse_prefix.mpr (List.dropWhile_suffix _)
      rwa [List.reverse_reverse, py_lstrip] at hs
    have hne : py_strip l ≠ [] := by
      intro e
      rw [e] at hc
      simp at hc
    have hh := head?_of_prefix hpre hne
    exact dw_head_not _ (hh ▸ hc)
  · intro c hc
    rw [py_strip, py_rstrip, List.getLast?_reverse] at hc
    exact dw_head_not _ hc

theorem py_strip_of_no_ws {l : List Char} (h : no_ws_ends l) : py_strip l = l := by
  have h1 : py_lstrip l = l := dw_self _ _ h.1
  rw [py_strip, h1, py_rstrip]
  have h2 : py_lstrip l.reverse = l.reverse := by
    apply dw_self
    intro c hc
    rw [List.head?_reverse] at hc
    exact h.2 c hc
  rw [h2, List.reverse_reverse]

/-! ## Uppercase lemmas -/

theorem py_upper_idem (l : List Char) : py_upper (py_upper l) = py_upper l := by
  rw [py_upper, py_upper, List.map_map]
  exact List.map_congr_left (fun a _ => py_upper_char_idem a)

theorem py_upper_no_ws {l : List Char} (h : no_ws_ends l) :
    no_ws_ends (py_upper l) := by
  constructor
  · intro c hc
    rw [py_upper, List.head?_map] at hc
    cases hl : l.head? with
    | none => rw [hl] at hc; simp at hc
    | some a =>
      rw [hl] at hc
      have : py_upper_char a = c := by simpa using hc
      rw [← this, py_upper_char_ws]
      exact h.1 a hl
  · intro c hc
    rw [py_upper, ← List.head?_reverse, ← List.map_reverse, List.head?_map,
      List.head?_reverse] at hc
    cases hl : l.getLast? with
    | none => rw [hl] at hc; simp at hc
    | some a =>
      rw [hl] at hc
      have : py_upper_char a = c := by simpa using hc
      rw [← this, py_upper_char_ws]
      exact h.2 a hl

/-! ## Gender normalization lemmas -/

theorem rstrip_s_mens (a : List Char) :
    py_rstrip_s (a ++ ['M', 'E', 'N', 'S']) = a ++ ['M', 'E', 'N'] := by
  have h2 : ∀ t : List Char,
      List.dropWhile (fun c => c == 'S') ('S' :: 'N' :: 'E' :: 'M' :: t) =
      'N' :: 'E' :: 'M' :: t := by
    intro t
    rw [List.dropWhile_cons, if_pos (by decide), List.dropWhile_cons,
      if_neg (by decide)]
  rw [py_rstrip_s, List.reverse_append]
  show (List.dropWhile (fun c => c == 'S')
    ('S' :: 'N' :: 'E' :: 'M' :: a.reverse)).reverse = _
  rw [h2]
  show (['N', 'E', 'M'] ++ a.reverse).reverse = _
  rw [List.reverse_append, List.reverse_reverse]
  rfl

theorem isSuffixOf_mens {u : List Char} (h : mens_chars.isSuffixOf u = true) :
    ∃ a, u = a ++ ['M', 'E', 'N', 'S'] := by
  rw [List.isSuffixOf_iff_suffix] at h
  obtain ⟨t, ht⟩ := h
  exact ⟨t, ht.symm⟩

theorem not_mens_suffix (a : List Char) :
    mens_chars.isSuffixOf (a ++ ['M', 'E', 'N']) = false := by
  by_contra hcon
  rw [Bool.not_eq_false, List.isSuffixOf_iff_suffix] at hcon
  obtain ⟨t, ht⟩ := hcon
  have h1 : (t ++ mens_chars).getLast? = some 'S' := by
    rw [show mens_chars = ['M', 'E', 'N'] ++ ['S'] from rfl, ← List.append_assoc,
      List.getLast?_concat]
  have h2 : (a ++ ['M', 'E', 'N']).getLast? = some 'N' := by
    rw [show (['M', 'E', 'N'] : List Char) = ['M', 'E'] ++ ['N'] from rfl,
      ← List.append_assoc, List.getLast?_concat]
  rw [ht, h2] at h1
  simp at h1

theorem py_upper_fix_men {a : List Char}
    (h : py_upper (a ++ ['M', 'E', 'N', 'S']) = a ++ ['M', 'E', 'N', 'S']) :
    py_upper (a ++ ['M', 'E', 'N']) = a ++ ['M', 'E', 'N'] := by
  rw [py_upper, List.map_append,
    show List.map py_upper_char ['M', 'E', 'N', 'S'] = ['M', 'E', 'N', 'S'] from by decide] at h
  have ha : List.map py_upper_char a = a := List.append_cancel_right h
  rw [py_upper, List.map_append, ha,
    show List.map py_upper_char ['M', 'E', 'N'] = ['M', 'E', 'N'] from by decide]

theorem no_ws_ends_men {a : List Char}
    (h : no_ws_ends (a ++ ['M', 'E', 'N', 'S'])) :
    no_ws_ends (a ++ ['M', 'E', 'N']) := by
  constructor
  · intro c hc
    cases a with
    | nil =>
      have : c = 'M' := by simpa using hc.symm
      subst this
      decide
    | cons x s =>
      have hx : x = c := by simpa using hc
      subst hx
      exact h.1 x rfl
  · intro c hc
    rw [show a ++ ['M', 'E', 'N'] = (a ++ ['M', 'E']) ++ ['N'] from by
      rw [List.append_assoc]; rfl, List.getLast?_concat] at hc
    have : c = 'N' := by simpa using hc.symm
    subst this
    decide

theorem normalize_gender_fixpoint {v : List Char} (h1 : no_ws_ends v)
    (h2 : py_upper v = v) (h3 : mens_chars.isSuffixOf v = false) :
    normalize_gender v = v := by
  simp [normalize_gender, py_strip_of_no_ws h1, h2, h3]

/-- C5: gender normalization (trim, uppercase, strip the trailing "S" when
the value ends with "MENS") maps "MENS" to "MEN" and "WOMENS" to "WOMEN",
leaves "MEN" unchanged, and applying it twice always equals applying it
once. -/
theorem c5_gender_normalization_idempotent :
    normalize_gender mens_chars = men_chars ∧
    normalize_gender womens_chars = women_chars ∧
    normalize_gender men_chars = men_chars ∧
    ∀ s : List Char, normalize_gender (normalize_gender s) = normalize_gender s := by
  refine ⟨by decide, by decide, by decide, ?_⟩
  intro s
  have hu_nw : no_ws_ends (py_upper (py_strip s)) :=
    py_upper_no_ws (py_strip_no_ws s)
  have hu_up : py_upper (py_upper (py_strip s)) = py_upper (py_strip s) :=
    py_upper_idem _
  cases hsf : mens_chars.isSuffixOf (py_upper (py_strip s)) with
  | true =>
    obtain ⟨a, ha⟩ := isSuffixOf_mens hsf
    have hns : normalize_gender s = a ++ ['M', 'E', 'N'] := by
      simp only [normalize_gender, hsf, if_true]
      rw [ha, rstrip_s_mens]
    rw [ha] at hu_nw hu_up
    rw [hns]
    exact normalize_gender_fixpoint (no_ws_ends_men hu_nw)
      (py_upper_fix_men hu_up) (not_mens_suffix a)
  | false =>
    have hns : normalize_gender s = py_upper (py_strip s) := by
      simp [normalize_gender, hsf]
    rw [hns]
    exact normalize_gender_fixpoint hu_nw hu_up hsf

/-! ## Cache-path lemmas -/

theorem split_at_us :
    ∀ (a b t1 t2 : List Char), '_' ∉ a → '_' ∉ b →
      a ++ '_' :: t1 = b ++ '_' :: t2 → a = b ∧ t1 = t2 := by
  intro a
  induction a with
  | nil =>
    intro b t1 t2 _ hb h
    cases b with
    | nil => simpa using h
    | cons x bs =>
      rw [List.nil_append, List.cons_append] at h
      injection h with h1 h2
      subst h1
      exact absurd (List.mem_cons_self _ _) hb
  | cons c as ih =>
    intro b t1 t2 ha hb h
    cases b with
    | nil =>
      rw [List.cons_append, List.nil_append] at h
      injection h with h1 h2
      subst h1
      exact absurd (List.mem_cons_self _ _) ha
    | cons d bs =>
      rw [List.cons_append, List.cons_append] at h
      injection h with h1 h2
      subst h1
      have ha2 : '_' ∉ as := fun hm => ha (List.mem_cons_of_mem _ hm)
      have hb2 : '_' ∉ bs := fun hm => hb (List.mem_cons_of_mem _ hm)
      obtain ⟨e1, e2⟩ := ih bs t1 t2 ha2 hb2 h2
      exact ⟨by rw [e1], e2⟩

theorem underscore_mem_entries (p : List Char × List Char)
    (rest : List (List Char × List Char)) (s : List Char) :
    '_' ∈ entries_chars (p :: rest) ++ s := by
  rw [entries_chars, entry_chars]
  simp

theorem us_free_head {p : List Char × List Char}
    {l : List (List Char × List Char)} (h : us_free (p :: l)) :
    ('_' ∉ p.1 ∧ '_' ∉ p.2) ∧ us_free l :=
  ⟨h p (List.mem_cons_self _ _), fun q hq => h q (List.mem_cons_of_mem _ hq)⟩

theorem entries_inj {s : List Char} (hs : '_' ∉ s) :
    ∀ (l1 l2 : List (List Char × List Char)), us_free l1 → us_free l2 →
      entries_chars l1 ++ s = entries_chars l2 ++ s → l1 = l2 := by
  intro l1
  induction l1 with
  | nil =>
    intro l2 _ h2 h
    cases l2 with
    | nil => rfl
    | cons q r2 =>
      have hm := underscore_mem_entries q r2 s
      rw [← h] at hm
      rw [entries_chars, List.nil_append] at hm
      exact absurd hm hs
  | cons p r1 ih =>
    intro l2 h1 h2 h
    cases l2 with
    | nil =>
      have hm := underscore_mem_entries p r1 s
      rw [h] at hm
      rw [entries_chars, List.nil_append] at hm
      exact absurd hm hs
    | cons q r2 =>
      obtain ⟨⟨hp1, hp2⟩, h1t⟩ := us_free_head h1
      obtain ⟨⟨hq1, hq2⟩, h2t⟩ := us_free_head h2
      simp only [entries_chars, entry_chars, List.cons_append, List.append_assoc] at h
      injection h with h0 h
      obtain ⟨hk, hv⟩ := split_at_us p.1 q.1 _ _ hp1 hq1 h
      cases r1 with
      | nil =>
        cases r2 with
        | nil =>
          rw [entries_chars, List.nil_append] at hv
          have hv2 := List.append_cancel_right hv
          have hpq : p = q := Prod.ext hk hv2
          rw [hpq]
        | cons x xs =>
          have hm : '_' ∈ q.2 ++ (entries_chars (x :: xs) ++ s) :=
            List.mem_append_right _ (underscore_mem_entries x xs s)
          rw [← hv] at hm
          rw [entries_chars, List.nil_append] at hm
          rcases List.mem_append.mp hm with hm1 | hm1
          · exact absurd hm1 hp2
          · exact absurd hm1 hs
      | cons y ys =>
        cases r2 with
        | nil =>
          have hm : '_' ∈ p.2 ++ (entries_chars (y :: ys) ++ s) :=
            List.mem_append_right _ (underscore_mem_entries y ys s)
          rw [hv] at hm
          rw [entries_chars, List.nil_append] at hm
          rcases List.mem_append.mp hm with hm1 | hm1
          · exact absurd hm1 hq2
          · exact absurd hm1 hs
        | cons x xs =>
          simp only [entries_chars, entry_chars, List.cons_append,
            List.append_assoc] at hv
          obtain ⟨hv1, hv2⟩ := split_at_us p.2 q.2 _ _ hp2 hq2 hv
          have hrec : entries_chars (y :: ys) ++ s = entries_chars (x :: xs) ++ s := by
            simp only [entries_chars, entry_chars, List.cons_append, List.append_assoc]
            rw [hv2]
          have htail := ih (x :: xs) h1t h2t hrec
          have hpq : p = q := Prod.ext hk hv1
          rw [hpq, htail]

theorem cache_path_inj_sorted {e1 e2 : List Char}
    {l1 l2 : List (List Char × List Char)}
    (he1 : '_' ∉ e1) (he2 : '_' ∉ e2) (h1 : us_free l1) (h2 : us_free l2)
    (h : e1 ++ entries_chars l1 ++ json_ext_chars =
      e2 ++ entries_chars l2 ++ json_ext_chars) :
    e1 = e2 ∧ l1 = l2 := by
  have hs : '_' ∉ json_ext_chars := by decide
  rw [List.append_assoc, List.append_assoc] at h
  cases l1 with
  | nil =>
    cases l2 with
    | nil =>
      rw [entries_chars, List.nil_append] at h
      exact ⟨List.append_cancel_right h, rfl⟩
    | cons q r2 =>
      have hm : '_' ∈ e2 ++ (entries_chars (q :: r2) ++ json_ext_chars) :=
        List.mem_append_right _ (underscore_mem_entries q r2 _)
      rw [← h] at hm
      rw [entries_chars, List.nil_append] at hm
      rcases List.mem_append.mp hm with hm1 | hm1
      · exact absurd hm1 he1
      · exact absurd hm1 hs
  | cons p r1 =>
    cases l2 with
    | nil =>
      have hm : '_' ∈ e1 ++ (entries_chars (p :: r1) ++ json_ext_chars) :=
        List.mem_append_right _ (underscore_mem_entries p r1 _)
      rw [h] at hm
      rw [entries_chars, List.nil_append] at hm
      rcases List.mem_append.mp hm with hm1 | hm1
      · exact absurd hm1 he2
      · exact absurd hm1 hs
    | cons q r2 =>
      simp only [entries_chars, entry_chars, List.cons_append, List.append_assoc] at h
      obtain ⟨hee, ht⟩ := split_at_us e1 e2 _ _ he1 he2 h
      have hrec : entries_chars (p :: r1) ++ json_ext_chars =
          entries_chars (q :: r2) ++ json_ext_chars := by
        simp only [entries_chars, entry_chars, List.cons_append, List.append_assoc]
        rw [ht]
      exact ⟨hee, entries_inj hs _ _ h1 h2 hrec⟩

/-- C3 counterexample: two distinct (endpoint, querystring) pairs produce
the same cache path: endpoint `"a"` with querystring `{"b": "c"}` and
endpoint `"a_b_c"` with the empty querystring both map to `"a_b_c.json"`. -/
theorem c3_cache_path_collision_counterexample :
    cache_path ep_a [(key_b, val_c)] = cache_path ep_abc [] ∧
    ¬(ep_a = ep_abc ∧ ([(key_b, val_c)] : List (List Char × List Char)) = []) := by
  constructor
  · decide
  · intro hcon
    exact absurd hcon.2 (by decide)

/-- C3 (amended): `cache_path` is injective up to querystring reordering
provided no underscore occurs in the endpoint or in any key or value (which
holds for every call the program makes); with underscores, distinct keys can
collide, as the counterexample shows. -/
theorem c3_cache_path_injective_amended (e1 e2 : List Char)
    (l1 l2 : List (List Char × List Char))
    (he1 : '_' ∉ e1) (he2 : '_' ∉ e2) (h1 : us_free l1) (h2 : us_free l2)
    (h : cache_path e1 l1 = cache_path e2 l2) :
    e1 = e2 ∧ l1.Perm l2 := by
  rw [cache_path, cache_path] at h
  have hk1 : us_free (key_sort l1) := fun p hp =>
    h1 p ((List.perm_insertionSort key_le l1).mem_iff.mp hp)
  have hk2 : us_free (key_sort l2) := fun p hp =>
    h2 p ((List.perm_insertionSort key_le l2).mem_iff.mp hp)
  obtain ⟨hee, hll⟩ := cache_path_inj_sorted he1 he2 hk1 hk2 h
  refine ⟨hee, ?_⟩
  have p1 : l1.Perm (key_sort l1) := (List.perm_insertionSort key_le l1).symm
  have p2 : key_sort l2 |>.Perm l2 := List.perm_insertionSort key_le l2
  exact (p1.trans (hll ▸ p2))

theorem c3_cache_path_injective_amended_witness :
    ('_' ∉ ep_sneakers) ∧ us_free [(key_limit, val_100), (key_page, val_0)] ∧
    (ep_sneakers = ep_sneakers ∧
      ([(key_limit, val_100), (key_page, val_0)] : List (List Char × List Char)).Perm
        [(key_limit, val_100), (key_page, val_0)]) :=
  ⟨by decide, by decide,
    c3_cache_path_injective_amended ep_sneakers ep_sneakers
      [(key_limit, val_100), (key_page, val_0)]
      [(key_limit, val_100), (key_page, val_0)]
      (by decide) (by decide) (by decide) (by decide) (by decide)⟩

/-! ## Ordering lemmas for the querystring sort -/

theorem str_le_total : ∀ a b : List Char, str_le a b = true ∨ str_le b a = true := by
  intro a
  induction a with
  | nil => intro b; left; rfl
  | cons c as ih =>
    intro b
    cases b with
    | nil => right; rfl
    | cons d bs =>
      simp only [str_le]
      by_cases h1 : c.toNat < d.toNat
      · left; rw [if_pos h1]
      · by_cases h2 : d.toNat < c.toNat
        · right; rw [if_pos h2]
        · rw [if_neg h1, if_neg h2, if_neg h2, if_neg h1]
          exact ih bs

theorem str_le_trans :
    ∀ a b c : List Char, str_le a b = true → str_le b c = true →
      str_le a c = true := by
  intro a
  induction a with
  | nil => intro b c _ _; rfl
  | cons x as ih =>
    intro b c hab hbc
    cases b with
    | nil => simp [str_le] at hab
    | cons y bs =>
      cases c with
      | nil => simp [str_le] at hbc
      | cons z cs =>
        simp only [str_le] at hab hbc ⊢
        by_cases h1 : x.toNat < y.toNat
        · by_cases h2 : y.toNat < z.toNat
          · rw [if_pos (by omega)]
          · by_cases h3 : z.toNat < y.toNat
            · rw [if_neg h2, if_pos h3] at hbc
              exact absurd hbc (by decide)
            · rw [if_pos (by omega)]
        · by_cases h1b : y.toNat < x.toNat
          · rw [if_neg h1, if_pos h1b] at hab
            exact absurd hab (by decide)
          · rw [if_neg h1, if_neg h1b] at hab
            by_cases h2 : y.toNat < z.toNat
            · rw [if_pos (by omega)]
            · by_cases h3 : z.toNat < y.toNat
              · rw [if_neg h2, if_pos h3] at hbc
                exact absurd hbc (by decide)
              · rw [if_neg h2, if_neg h3] at hbc
                rw [if_neg (by omega), if_neg (by omega)]
                exact ih bs cs hab hbc

theorem str_le_antisymm :
    ∀ a b : List Char, str_le a b = true → str_le b a = true → a = b := by
  intro a
  induction a with
  | nil =>
    intro b _ hba
    cases b with
    | nil => rfl
    | cons y bs => simp [str_le] at hba
  | cons x as ih =>
    intro b hab hba
    cases b with
    | nil => simp [str_le] at hab
    | cons y bs =>
      simp only [str_le] at hab hba
      by_cases h1 : x.toNat < y.toNat
      · rw [if_neg (by omega), if_pos h1] at hba
        exact absurd hba (by decide)
      · by_cases h2 : y.toNat < x.toNat
        · rw [if_neg h1, if_pos h2] at hab
          exact absurd hab (by decide)
        · rw [if_neg h1, if_neg h2] at hab
          rw [if_neg h2, if_neg h1] at hba
          have hxy : x = y := char_eq_of_toNat_eq (by omega)
          rw [hxy, ih bs hab hba]

theorem key_sort_eq_of_perm {l1 l2 : List (List Char × List Char)}
    (hp : l1.Perm l2) (hnd : (l1.map Prod.fst).Nodup) :
    key_sort l1 = key_sort l2 := by
  haveI : IsTotal (List Char × List Char) key_le := ⟨fun a b => str_le_total a.1 b.1⟩
  haveI : IsTrans (List Char × List Char) key_le :=
    ⟨fun a b c h1 h2 => str_le_trans a.1 b.1 c.1 h1 h2⟩
  haveI : IsAntisymm (List Char × List Char)
      (fun p q : List Char × List Char => key_le p q ∧ p.1 ≠ q.1) :=
    ⟨fun a b h1 h2 => absurd (str_le_antisymm a.1 b.1 h1.1 h2.1) h1.2⟩
  have hs1 : (key_sort l1).Sorted key_le := List.sorted_insertionSort key_le l1
  have hs2 : (key_sort l2).Sorted key_le := List.sorted_insertionSort key_le l2
  have hperm1 : key_sort l1 |>.Perm l1 := List.perm_insertionSort key_le l1
  have hperm2 : key_sort l2 |>.Perm l2 := List.perm_insertionSort key_le l2
  have hp12 : key_sort l1 |>.Perm (key_sort l2) :=
    hperm1.trans (hp.trans hperm2.symm)
  have hnd1 : ((key_sort l1).map Prod.fst).Nodup :=
    ((hperm1.map Prod.fst).nodup_iff).mpr hnd
  have hnd2 : ((key_sort l2).map Prod.fst).Nodup :=
    (((hperm2.trans hp.symm).map Prod.fst).nodup_iff).mpr hnd
  have hne1 : (key_sort l1).Pairwise (fun p q => p.1 ≠ q.1) := by
    rw [List.Nodup, List.pairwise_map] at hnd1
    exact hnd1
  have hne2 : (key_sort l2).Pairwise (fun p q => p.1 ≠ q.1) := by
    rw [List.Nodup, List.pairwise_map] at hnd2
    exact hnd2
  exact List.eq_of_perm_of_sorted hp12 (hs1.and hne1) (hs2.and hne2)

/-- C8: the cache path does not depend on the order in which the
querystring's key/value pairs are given: for querystrings holding the same
pairs in any order (with the keys not repeating, as in a Python dict), the
cache file path is identical. -/
theorem c8_cache_path_order_invariant (e : List Char)
    (l1 l2 : List (List Char × List Char)) (hp : l1.Perm l2)
    (hnd : (l1.map Prod.fst).Nodup) :
    cache_path e l1 = cache_path e l2 := by
  rw [cache_path, cache_path, key_sort_eq_of_perm hp hnd]

theorem c8_cache_path_order_invariant_witness :
    (([(key_page, val_0), (key_limit, val_100)] : List (List Char × List Char)).Perm
      [(key_limit, val_100), (key_page, val_0)]) ∧
    ((([(key_page, val_0), (key_limit, val_100)] :
      List (List Char × List Char)).map Prod.fst).Nodup) ∧
    cache_path ep_sneakers [(key_page, val_0), (key_limit, val_100)] =
      cache_path ep_sneakers [(key_limit, val_100), (key_page, val_0)] :=
  ⟨by decide, by decide,
    c8_cache_path_order_invariant ep_sneakers _ _ (by decide) (by decide)⟩

/-! ## Sanitization and reconciliation lemmas -/

theorem py_strip_idem (l : List Char) : py_strip (py_strip l) = py_strip l :=
  py_strip_of_no_ws (py_strip_no_ws l)

theorem sanitize_ok {gs bs : List (List Char)} {r : RawSneaker}
    (hb : py_upper (py_strip r.brand) ∈ bs)
    (hg : normalize_gender r.gender ∈ gs) :
    get_basically_sanitized_sneaker_data gs bs r = .ok (san_data r) := by
  simp only [get_basically_sanitized_sneaker_data, san_data]
  rw [if_neg (not_not_intro hb), if_neg (not_not_intro hg)]

theorem sanitize_err_brand {gs bs : List (List Char)} {r : RawSneaker}
    (hb : py_upper (py_strip r.brand) ∉ bs) :
    get_basically_sanitized_sneaker_data gs bs r = .error .unknownBrand := by
  simp only [get_basically_sanitized_sneaker_data]
  rw [if_pos hb]

theorem sanitize_err_gender {gs bs : List (List Char)} {r : RawSneaker}
    (hb : py_upper (py_strip r.brand) ∈ bs)
    (hg : normalize_gender r.gender ∉ gs) :
    get_basically_sanitized_sneaker_data gs bs r = .error .unknownGender := by
  simp only [get_basically_sanitized_sneaker_data]
  rw [if_neg (not_not_intro hb), if_pos hg]

theorem insert_eq_fix {gs bs : List (List Char)} {r : RawSneaker} {d0 : SneakerData}
    (hsku : r.sku ≠ []) (hs : get_basically_sanitized_sneaker_data gs bs r = .ok d0) :
    insert_sneaker gs bs r = fix_date_and_year_in_sneaker_data d0 := by
  simp only [insert_sneaker]
  rw [if_neg hsku, hs]

theorem insert_err_of_san_err {gs bs : List (List Char)} {r : RawSneaker}
    {e : NormError} (hs : get_basically_sanitized_sneaker_data gs bs r = .error e) :
    ∃ e2, insert_sneaker gs bs r = .error e2 := by
  simp only [insert_sneaker]
  by_cases hsku : r.sku = []
  · exact ⟨.emptySku, by rw [if_pos hsku]⟩
  · exact ⟨e, by rw [if_neg hsku, hs]⟩

theorem ok_prefix_trunc {gs bs : List (List Char)} {r : RawSneaker} {e : NormError}
    (he : insert_sneaker gs bs r = .error e) :
    ∀ pre suf, ok_prefix_rows gs bs (pre ++ r :: suf) = ok_prefix_rows gs bs pre := by
  intro pre
  induction pre with
  | nil =>
    intro suf
    rw [List.nil_append]
    simp only [ok_prefix_rows]
    rw [he]
  | cons q pre ih =>
    intro suf
    rw [List.cons_append]
    simp only [ok_prefix_rows]
    cases hq : insert_sneaker gs bs q with
    | error e2 => rfl
    | ok rl => rw [ih suf]

theorem fix_date_ne_nil {rd : List Char} (hfmt : is_date_format rd = true) :
    rd ≠ [] := by
  intro e
  rw [e] at hfmt
  exact absurd hfmt (by decide)

theorem rewrite_date_ne_nil {rd : List Char} (h : rd ≠ []) :
    rewrite_date rd ≠ [] := by
  rw [rewrite_date]
  split
  · simp [twenty_chars]
  · exact h

theorem foldl_digits_ge (l : List Char) : ∀ a : Nat, 1 ≤ a →
    1 ≤ l.foldl (fun a c => a * 10 + (c.toNat - 48)) a := by
  induction l with
  | nil => intro a ha; exact ha
  | cons c t ih =>
    intro a ha
    rw [List.foldl_cons]
    exact ih _ (by omega)

theorem date_shape {rd : List Char} (hfmt : is_date_format rd = true) :
    ∃ y1 y2 t, rd = y1 :: y2 :: t ∧ is_digit_char y1 = true ∧
      is_digit_char y2 = true ∧ (y1 != '-') = true ∧ (y2 != '-') = true := by
  rcases rd with _ | ⟨y1, _ | ⟨y2, t⟩⟩
  · exact Bool.noConfusion hfmt
  · exact Bool.noConfusion hfmt
  · rcases t with _ | ⟨y3, _ | ⟨y4, _ | ⟨h1, _ | ⟨m1, _ | ⟨m2, _ | ⟨h2, _ | ⟨d1, _ | ⟨d2, _ | ⟨e1, t2⟩⟩⟩⟩⟩⟩⟩⟩⟩
    · exact Bool.noConfusion hfmt
    · exact Bool.noConfusion hfmt
    · exact Bool.noConfusion hfmt
    · exact Bool.noConfusion hfmt
    · exact Bool.noConfusion hfmt
    · exact Bool.noConfusion hfmt
    · exact Bool.noConfusion hfmt
    · exact Bool.noConfusion hfmt
    · simp only [is_date_format, Bool.and_eq_true] at hfmt
      obtain ⟨⟨⟨⟨⟨⟨⟨⟨⟨hd1, hd2⟩, hd3⟩, hd4⟩, hh1⟩, hm1⟩, hm2⟩, hh2⟩, hdd1⟩, hdd2⟩ := hfmt
      have hdig1 := of_decide_eq_true hd1
      have hdig2 := of_decide_eq_true hd2
      refine ⟨y1, y2, _, rfl, hd1, hd2, ?_, ?_⟩
      · rw [bne_iff_ne]
        intro e
        rw [e] at hdig1
        revert hdig1
        decide
      · rw [bne_iff_ne]
        intro e
        rw [e] at hdig2
        revert hdig2
        decide
    · exact Bool.noConfusion hfmt

theorem year_of_rewrite_pos {rd : List Char} (hfmt : is_date_format rd = true) :
    0 < year_of (rewrite_date rd) := by
  obtain ⟨y1, y2, t, rfl, hd1, hd2, hne1, hne2⟩ := date_shape hfmt
  rw [rewrite_date]
  by_cases h00 : (y1 :: y2 :: t).take 2 = zerozero_chars
  · rw [if_pos h00]
    have hline : year_of (twenty_chars ++ (y1 :: y2 :: t).drop 2) =
        ((List.foldl (fun a c => a * 10 + (c.toNat - 48)) 20
          (List.takeWhile (fun c => c != '-') t) : Nat) : Int) := rfl
    rw [hline]
    have h3 := foldl_digits_ge (List.takeWhile (fun c => c != '-') t) 20 (by omega)
    omega
  · rw [if_neg h00]
    have hline : year_of (y1 :: y2 :: t) =
        ((List.foldl (fun a c => a * 10 + (c.toNat - 48))
          ((0 * 10 + (y1.toNat - 48)) * 10 + (y2.toNat - 48))
          (List.takeWhile (fun c => c != '-') t) : Nat) : Int) := by
      rw [year_of, List.takeWhile_cons, if_pos hne1, List.takeWhile_cons, if_pos hne2,
        List.foldl_cons, List.foldl_cons]
    rw [hline]
    have hdig1 := of_decide_eq_true hd1
    have hdig2 := of_decide_eq_true hd2
    have hny : y1.toNat ≠ 48 ∨ y2.toNat ≠ 48 := by
      by_contra hcon
      push_neg at hcon
      apply h00
      have e1 : y1 = '0' := char_eq_of_toNat_eq (by rw [hcon.1]; decide)
      have e2 : y2 = '0' := char_eq_of_toNat_eq (by rw [hcon.2]; decide)
      rw [e1, e2]
      rfl
    have hacc : 1 ≤ (0 * 10 + (y1.toNat - 48)) * 10 + (y2.toNat - 48) := by
      rcases hny with h | h <;> omega
    have h3 := foldl_digits_ge (List.takeWhile (fun c => c != '-') t) _ hacc
    omega

theorem fix_skip {d : SneakerData}
    (h : py_strip (d.releaseDate.getD []) = [] ∨
      py_strip (d.releaseDate.getD []) = sentinel_chars) :
    fix_date_and_year_in_sneaker_data d =
      .ok (set_date_year d (py_strip (d.releaseDate.getD [])) d.releaseYear,
        ⟨false, false⟩) := by
  simp only [fix_date_and_year_in_sneaker_data]
  rw [if_neg (fun hcon => h.elim (fun h1 => hcon.1 h1) (fun h2 => hcon.2 h2))]

theorem fix_fill {d : SneakerData}
    (hfmt : is_date_format (py_strip (d.releaseDate.getD [])) = true)
    (hsent : py_strip (d.releaseDate.getD []) ≠ sentinel_chars)
    (hy : d.releaseYear = none ∨ d.releaseYear = some 0) :
    fix_date_and_year_in_sneaker_data d =
      .ok (set_date_year d (rewrite_date (py_strip (d.releaseDate.getD [])))
        (some (year_of (rewrite_date (py_strip (d.releaseDate.getD []))))),
        ⟨true, false⟩) := by
  simp only [fix_date_and_year_in_sneaker_data]
  rw [if_pos ⟨fix_date_ne_nil hfmt, hsent⟩, if_pos hfmt]
  rcases hy with hy | hy
  · simp only [hy]
  · simp only [hy]
    simp

theorem fix_repair {d : SneakerData} {y : Int}
    (hfmt : is_date_format (py_strip (d.releaseDate.getD [])) = true)
    (hsent : py_strip (d.releaseDate.getD []) ≠ sentinel_chars)
    (hy : d.releaseYear = some y) (hy0 : y ≠ 0) :
    fix_date_and_year_in_sneaker_data d =
      .ok (set_date_year d (rewrite_date (py_strip (d.releaseDate.getD [])))
        (some (if y < 99 then y + 2000 else y)),
        ⟨false, (if y < 99 then y + 2000 else y) !=
          year_of (rewrite_date (py_strip (d.releaseDate.getD [])))⟩) := by
  simp only [fix_date_and_year_in_sneaker_data]
  rw [if_pos ⟨fix_date_ne_nil hfmt, hsent⟩, if_pos hfmt]
  simp only [hy]
  rw [if_neg hy0]

theorem fix_preserves {d0 d : SneakerData} {log : FixLog}
    (h : fix_date_and_year_in_sneaker_data d0 = .ok (d, log)) :
    d.brand = d0.brand ∧ d.gender = d0.gender ∧
    d.estimatedMarketValue = d0.estimatedMarketValue ∧
    d.retailPrice = d0.retailPrice ∧ d.sku = d0.sku := by
  have hset : ∀ (rd : List Char) (ry : Option Int),
      d = set_date_year d0 rd ry →
      d.brand = d0.brand ∧ d.gender = d0.gender ∧
      d.estimatedMarketValue = d0.estimatedMarketValue ∧
      d.retailPrice = d0.retailPrice ∧ d.sku = d0.sku := by
    intro rd ry hd
    rw [hd]
    exact ⟨rfl, rfl, rfl, rfl, rfl⟩
  simp only [fix_date_and_year_in_sneaker_data] at h
  split at h
  · split at h
    · split at h
      · simp only [Except.ok.injEq, Prod.mk.injEq] at h
        exact hset _ _ h.1.symm
      · split at h
        · simp only [Except.ok.injEq, Prod.mk.injEq] at h
          exact hset _ _ h.1.symm
        · simp only [Except.ok.injEq, Prod.mk.injEq] at h
          exact hset _ _ h.1.symm
    · exact absurd h (by simp)
  · simp only [Except.ok.injEq, Prod.mk.injEq] at h
    exact hset _ _ h.1.symm

theorem sanitize_fields {gs bs : List (List Char)} {r : RawSneaker} {d0 : SneakerData}
    (h : get_basically_sanitized_sneaker_data gs bs r = .ok d0) :
    d0.estimatedMarketValue =
      (if 0 < r.estimatedMarketValue then some r.estimatedMarketValue else none) ∧
    d0.retailPrice = (if 0 < r.retailPrice then some r.retailPrice else none) := by
  simp only [get_basically_sanitized_sneaker_data] at h
  split at h
  · exact absurd h (by simp)
  · split at h
    · exact absurd h (by simp)
    · simp only [Except.ok.injEq] at h
      rw [← h]
      exact ⟨rfl, rfl⟩

/-- C7: the integer fields `estimatedMarketValue` and `retailPrice` appear in
the normalized output exactly when their raw value is strictly positive; a
zero or negative value leaves the field absent, never stored as zero or
negative. -/
theorem c7_positive_int_fields (gs bs : List (List Char)) (r : RawSneaker)
    (d : SneakerData) (log : FixLog)
    (h : insert_sneaker gs bs r = .ok (d, log)) :
    d.estimatedMarketValue =
      (if 0 < r.estimatedMarketValue then some r.estimatedMarketValue else none) ∧
    d.retailPrice = (if 0 < r.retailPrice then some r.retailPrice else none) := by
  simp only [insert_sneaker] at h
  split at h
  · exact absurd h (by simp)
  · split at h
    · exact absurd h (by simp)
    · rename_i d0 heq
      have pres := fix_preserves h
      have sf := sanitize_fields heq
      exact ⟨pres.2.2.1.trans sf.1, pres.2.2.2.1.trans sf.2⟩

theorem c7_positive_int_fields_witness :
    (insert_sneaker genders_ref brands_ref raw_c7 =
      .ok (⟨nike_chars, men_chars, none, some 2015, [], [], [], sku1_chars, none, [],
        some date_2015⟩, ⟨false, false⟩)) ∧
    ((⟨nike_chars, men_chars, none, some 2015, [], [], [], sku1_chars, none, [],
        some date_2015⟩ : SneakerData).estimatedMarketValue =
      (if 0 < raw_c7.estimatedMarketValue then some raw_c7.estimatedMarketValue else none) ∧
     (⟨nike_chars, men_chars, none, some 2015, [], [], [], sku1_chars, none, [],
        some date_2015⟩ : SneakerData).retailPrice =
      (if 0 < raw_c7.retailPrice then some raw_c7.retailPrice else none)) :=
  ⟨by decide,
    c7_positive_int_fields genders_ref brands_ref raw_c7
      ⟨nike_chars, men_chars, none, some 2015, [], [], [], sku1_chars, none, [],
        some date_2015⟩ ⟨false, false⟩ (by decide)⟩

/-- C6: a record whose normalized gender is outside the gender reference
set, or whose uppercased brand is outside the brand reference set, fails
sanitization with an UnknownGender (respectively UnknownBrand) error, and no
row for it (nor for the records after it on its page) is inserted. -/
theorem c6_unknown_gender_brand_rejected (gs bs : List (List Char))
    (r : RawSneaker) (pre suf : List RawSneaker)
    (h : normalize_gender r.gender ∉ gs ∨ py_upper (py_strip r.brand) ∉ bs) :
    (get_basically_sanitized_sneaker_data gs bs r = .error .unknownGender ∨
      get_basically_sanitized_sneaker_data gs bs r = .error .unknownBrand) ∧
    (py_upper (py_strip r.brand) ∉ bs →
      get_basically_sanitized_sneaker_data gs bs r = .error .unknownBrand) ∧
    (normalize_gender r.gender ∉ gs → py_upper (py_strip r.brand) ∈ bs →
      get_basically_sanitized_sneaker_data gs bs r = .error .unknownGender) ∧
    ok_prefix_rows gs bs (pre ++ r :: suf) = ok_prefix_rows gs bs pre := by
  have herr : ∃ e, get_basically_sanitized_sneaker_data gs bs r = .error e := by
    by_cases hb : py_upper (py_strip r.brand) ∈ bs
    · rcases h with hg | hb2
      · exact ⟨_, sanitize_err_gender hb hg⟩
      · exact absurd hb hb2
    · exact ⟨_, sanitize_err_brand hb⟩
  obtain ⟨e, he⟩ := herr
  obtain ⟨e2, he2⟩ := insert_err_of_san_err he
  refine ⟨?_, fun hb => sanitize_err_brand hb,
    fun hg hb => sanitize_err_gender hb hg, ok_prefix_trunc he2 pre suf⟩
  by_cases hb : py_upper (py_strip r.brand) ∈ bs
  · rcases h with hg | hb2
    · exact Or.inl (sanitize_err_gender hb hg)
    · exact absurd hb hb2
  · exact Or.inr (sanitize_err_brand hb)

theorem c6_unknown_gender_brand_rejected_witness :
    (get_basically_sanitized_sneaker_data genders_ref brands_ref raw_bad =
        .error .unknownGender ∨
      get_basically_sanitized_sneaker_data genders_ref brands_ref raw_bad =
        .error .unknownBrand) ∧
    (py_upper (py_strip raw_bad.brand) ∉ brands_ref →
      get_basically_sanitized_sneaker_data genders_ref brands_ref raw_bad =
        .error .unknownBrand) ∧
    (normalize_gender raw_bad.gender ∉ genders_ref →
      py_upper (py_strip raw_bad.brand) ∈ brands_ref →
      get_basically_sanitized_sneaker_data genders_ref brands_ref raw_bad =
        .error .unknownGender) ∧
    ok_prefix_rows genders_ref brands_ref ([raw_ok] ++ raw_bad :: []) =
      ok_prefix_rows genders_ref brands_ref [raw_ok] :=
  c6_unknown_gender_brand_rejected genders_ref brands_ref raw_bad [raw_ok] []
    (by decide)

/-- C4: for a record with a valid non-sentinel releaseDate, a dropped
(non-positive) releaseYear is filled from the date's year with no mismatch
logged; a positive releaseYear below 99 is increased by 2000; and whenever
the resulting releaseYear differs from the date's year a mismatch is logged
at error level, but the record is still stored with that releaseYear. -/
theorem c4_year_reconciliation (gs bs : List (List Char)) (r : RawSneaker)
    (hsku : r.sku ≠ [])
    (hb : py_upper (py_strip r.brand) ∈ bs)
    (hg : normalize_gender r.gender ∈ gs)
    (hfmt : is_date_format (py_strip r.releaseDate) = true)
    (hsent : py_strip r.releaseDate ≠ sentinel_chars) :
    ∃ d log, insert_sneaker gs bs r = .ok (d, log) ∧
      (r.releaseYear ≤ 0 →
        d.releaseYear = some (year_of (rewrite_date (py_strip r.releaseDate))) ∧
        log.filledFromDate = true ∧ log.mismatch = false) ∧
      (0 < r.releaseYear → r.releaseYear < 99 →
        d.releaseYear = some (r.releaseYear + 2000) ∧
        log.filledFromDate = false ∧
        log.mismatch =
          (r.releaseYear + 2000 != year_of (rewrite_date (py_strip r.releaseDate)))) ∧
      (99 ≤ r.releaseYear →
        d.releaseYear = some r.releaseYear ∧
        log.filledFromDate = false ∧
        log.mismatch =
          (r.releaseYear != year_of (rewrite_date (py_strip r.releaseDate)))) := by
  have hs := sanitize_ok hb hg
  have hins := insert_eq_fix hsku hs
  have hrd : py_strip ((san_data r).releaseDate.getD []) = py_strip r.releaseDate :=
    py_strip_idem r.releaseDate
  have hfmt2 : is_date_format (py_strip ((san_data r).releaseDate.getD [])) = true := by
    rw [hrd]; exact hfmt
  have hsent2 : py_strip ((san_data r).releaseDate.getD []) ≠ sentinel_chars := by
    rw [hrd]; exact hsent
  have hpy := year_of_rewrite_pos hfmt
  by_cases h0 : 0 < r.releaseYear
  · have hryd : (san_data r).releaseYear = some r.releaseYear := by
      simp only [san_data]
      rw [if_pos h0]
    have hfx := fix_repair hfmt2 hsent2 hryd (by omega)
    rw [hrd] at hfx
    refine ⟨_, _, by rw [hins, hfx], ?_, ?_, ?_⟩
    · intro hle; omega
    · intro _ h99
      refine ⟨?_, rfl, ?_⟩
      · simp only [set_date_year]
        rw [if_pos h99, if_neg (by omega : ¬ r.releaseYear + 2000 = 0)]
      · rw [if_pos h99]
    · intro h99
      refine ⟨?_, rfl, ?_⟩
      · simp only [set_date_year]
        rw [if_neg (by omega : ¬ r.releaseYear < 99),
          if_neg (by omega : ¬ r.releaseYear = 0)]
      · rw [if_neg (by omega : ¬ r.releaseYear < 99)]
  · have hryd : (san_data r).releaseYear = none := by
      simp only [san_data]
      rw [if_neg h0]
    have hfx := fix_fill hfmt2 hsent2 (Or.inl hryd)
    rw [hrd] at hfx
    refine ⟨_, _, by rw [hins, hfx], ?_, ?_, ?_⟩
    · intro _
      refine ⟨?_, rfl, rfl⟩
      simp only [set_date_year]
      rw [if_neg (by omega : ¬ year_of (rewrite_date (py_strip r.releaseDate)) = 0)]
    · intro h0b _
      omega
    · intro h99
      omega

theorem c4_year_reconciliation_witness :
    ∃ d log, insert_sneaker genders_ref brands_ref raw_ok = .ok (d, log) ∧
      (raw_ok.releaseYear ≤ 0 →
        d.releaseYear = some (year_of (rewrite_date (py_strip raw_ok.releaseDate))) ∧
        log.filledFromDate = true ∧ log.mismatch = false) ∧
      (0 < raw_ok.releaseYear → raw_ok.releaseYear < 99 →
        d.releaseYear = some (raw_ok.releaseYear + 2000) ∧
        log.filledFromDate = false ∧
        log.mismatch =
          (raw_ok.releaseYear + 2000 !=
            year_of (rewrite_date (py_strip raw_ok.releaseDate)))) ∧
      (99 ≤ raw_ok.releaseYear →
        d.releaseYear = some raw_ok.releaseYear ∧
        log.filledFromDate = false ∧
        log.mismatch =
          (raw_ok.releaseYear != year_of (rewrite_date (py_strip raw_ok.releaseDate)))) :=
  c4_year_reconciliation genders_ref brands_ref raw_ok (by decide) (by decide)
    (by decide) (by decide) (by decide)

/-- C10: a record with a zero or negative releaseYear does not fail
validation: sanitization classifies releaseYear with the positive-only
integer fields and silently drops it, and the reconciliation then refills it
from the year of the valid releaseDate. -/
theorem c10_release_year_dropped_and_refilled (gs bs : List (List Char))
    (r : RawSneaker) (hsku : r.sku ≠ [])
    (hb : py_upper (py_strip r.brand) ∈ bs)
    (hg : normalize_gender r.gender ∈ gs)
    (hfmt : is_date_format (py_strip r.releaseDate) = true)
    (hsent : py_strip r.releaseDate ≠ sentinel_chars)
    (hy : r.releaseYear ≤ 0) :
    (get_basically_sanitized_sneaker_data gs bs r = .ok (san_data r) ∧
      (san_data r).releaseYear = none) ∧
    ∃ d log, insert_sneaker gs bs r = .ok (d, log) ∧
      d.releaseYear = some (year_of (rewrite_date (py_strip r.releaseDate))) ∧
      log.filledFromDate = true := by
  have hs := sanitize_ok hb hg
  have hins := insert_eq_fix hsku hs
  have hrd : py_strip ((san_data r).releaseDate.getD []) = py_strip r.releaseDate :=
    py_strip_idem r.releaseDate
  have hfmt2 : is_date_format (py_strip ((san_data r).releaseDate.getD [])) = true := by
    rw [hrd]; exact hfmt
  have hsent2 : py_strip ((san_data r).releaseDate.getD []) ≠ sentinel_chars := by
    rw [hrd]; exact hsent
  have hpy := year_of_rewrite_pos hfmt
  have hryd : (san_data r).releaseYear = none := by
    simp only [san_data]
    rw [if_neg (by omega : ¬ 0 < r.releaseYear)]
  have hfx := fix_fill hfmt2 hsent2 (Or.inl hryd)
  rw [hrd] at hfx
  refine ⟨⟨hs, hryd⟩, _, _, by rw [hins, hfx], ?_, rfl⟩
  simp only [set_date_year]
  rw [if_neg (by omega : ¬ year_of (rewrite_date (py_strip r.releaseDate)) = 0)]

theorem c10_release_year_dropped_and_refilled_witness :
    (get_basically_sanitized_sneaker_data genders_ref brands_ref raw_c10 =
        .ok (san_data raw_c10) ∧ (san_data raw_c10).releaseYear = none) ∧
    ∃ d log, insert_sneaker genders_ref brands_ref raw_c10 = .ok (d, log) ∧
      d.releaseYear = some (year_of (rewrite_date (py_strip raw_c10.releaseDate))) ∧
      log.filledFromDate = true :=
  c10_release_year_dropped_and_refilled genders_ref brands_ref raw_c10
    (by decide) (by decide) (by decide) (by decide) (by decide) (by decide)

/-- C1 counterexample: the reconciliation applied to a row whose releaseDate
is the sentinel "0001-01-01" keeps the releaseDate field with the sentinel
value in the normalized output (the code comment says it deliberately leaves
it there), contradicting the claim that the output contains no releaseDate
field. -/
theorem c1_sentinel_kept_counterexample :
    fix_date_and_year_in_sneaker_data data_sentinel =
      .ok (data_sentinel, ⟨false, false⟩) ∧
    data_sentinel.releaseDate = some sentinel_chars :=
  ⟨by decide, by decide⟩

/-- C1 (amended): a valid non-sentinel releaseDate starting with "00" is
rewritten to start with "20"; a releaseDate equal to the sentinel
"0001-01-01" skips validation and no releaseYear is inferred from it, but
the releaseDate field is kept with the sentinel value in the normalized
output (it is not treated as absent). -/
theorem c1_date_rewrite_amended (d d3 : SneakerData)
    (hfmt : is_date_format (py_strip (d.releaseDate.getD [])) = true)
    (hsent : py_strip (d.releaseDate.getD []) ≠ sentinel_chars)
    (h00 : (py_strip (d.releaseDate.getD [])).take 2 = zerozero_chars)
    (hs3 : py_strip (d3.releaseDate.getD []) = sentinel_chars) :
    (∃ d2 log, fix_date_and_year_in_sneaker_data d = .ok (d2, log) ∧
      d2.releaseDate =
        some (twenty_chars ++ (py_strip (d.releaseDate.getD [])).drop 2)) ∧
    (fix_date_and_year_in_sneaker_data d3 =
      .ok (set_date_year d3 sentinel_chars d3.releaseYear, ⟨false, false⟩) ∧
     (set_date_year d3 sentinel_chars d3.releaseYear).releaseDate =
       some sentinel_chars) := by
  constructor
  · have hrw : rewrite_date (py_strip (d.releaseDate.getD [])) =
        twenty_chars ++ (py_strip (d.releaseDate.getD [])).drop 2 := by
      rw [rewrite_date, if_pos h00]
    have hne := rewrite_date_ne_nil (fix_date_ne_nil hfmt)
    cases hry : d.releaseYear with
    | none =>
      have hfx := fix_fill hfmt hsent (Or.inl hry)
      exact ⟨_, _, hfx, by simp only [set_date_year]; rw [if_neg hne, hrw]⟩
    | some y =>
      by_cases hy0 : y = 0
      · have hfx := fix_fill hfmt hsent (Or.inr (by rw [hry, hy0]))
        exact ⟨_, _, hfx, by simp only [set_date_year]; rw [if_neg hne, hrw]⟩
      · have hfx := fix_repair hfmt hsent hry hy0
        exact ⟨_, _, hfx, by simp only [set_date_year]; rw [if_neg hne, hrw]⟩
  · have hfx := fix_skip (Or.inr hs3)
    rw [hs3] at hfx
    refine ⟨hfx, ?_⟩
    simp only [set_date_year]
    rw [if_neg (by decide : ¬ sentinel_chars = [])]

theorem c1_date_rewrite_amended_witness :
    (∃ d2 log, fix_date_and_year_in_sneaker_data data_0099 = .ok (d2, log) ∧
      d2.releaseDate =
        some (twenty_chars ++ (py_strip (data_0099.releaseDate.getD [])).drop 2)) ∧
    (fix_date_and_year_in_sneaker_data data_sentinel =
      .ok (set_date_year data_sentinel sentinel_chars data_sentinel.releaseYear,
        ⟨false, false⟩) ∧
     (set_date_year data_sentinel sentinel_chars
        data_sentinel.releaseYear).releaseDate = some sentinel_chars) :=
  c1_date_rewrite_amended data_0099 data_sentinel (by decide) (by decide)
    (by decide) (by decide)

/-! ## Page-loop lemmas -/

theorem insert_page_spec (gs bs : List (List Char)) :
    ∀ (rs : List RawSneaker) (db : DB),
      insert_page_records gs bs rs db =
        ({ committed := db.committed, pending := db.pending ++ ok_prefix_rows gs bs rs },
          first_record_error gs bs rs) := by
  intro rs
  induction rs with
  | nil =>
    intro db
    simp [insert_page_records, ok_prefix_rows, first_record_error]
  | cons r rest ih =>
    intro db
    simp only [insert_page_records, ok_prefix_rows, first_record_error]
    cases hr : insert_sneaker gs bs r with
    | error e => simp
    | ok rl =>
      simp only []
      rw [ih (db_insert db rl.1)]
      simp [db_insert, List.append_assoc]

theorem load_page_spec (gs bs : List (List Char))
    (pd : Option (List RawSneaker)) (db : DB) :
    ∃ db2, load_sneakers_page gs bs pd db = (db2, page_error gs bs pd) ∧
      db2.committed ++ db2.pending =
        db.committed ++ db.pending ++ page_inserted_rows gs bs pd := by
  cases pd with
  | none =>
    exact ⟨db, rfl, by simp [page_inserted_rows]⟩
  | some rs =>
    simp only [load_sneakers_page, page_inserted_rows, page_error]
    rw [insert_page_spec]
    cases hfe : first_record_error gs bs rs with
    | none =>
      refine ⟨_, rfl, ?_⟩
      simp [db_commit, List.append_assoc]
    | some e =>
      refine ⟨_, rfl, ?_⟩
      simp [List.append_assoc]

theorem load_fold_spec (gs bs : List (List Char))
    (fetch : Nat → Option (List RawSneaker)) :
    ∀ (pages : List Nat) (db : DB) (log : List (Nat × PageError)),
      ((pages.foldl (page_step gs bs fetch) (db, log)).1.committed ++
        (pages.foldl (page_step gs bs fetch) (db, log)).1.pending =
        db.committed ++ db.pending ++ pages_rows gs bs fetch pages) ∧
      (pages.foldl (page_step gs bs fetch) (db, log)).2 =
        log ++ pages_log gs bs fetch pages := by
  intro pages
  induction pages with
  | nil =>
    intro db log
    simp [pages_rows, pages_log]
  | cons p rest ih =>
    intro db log
    rw [List.foldl_cons]
    obtain ⟨db2, heq, hcp⟩ := load_page_spec gs bs (fetch p) db
    cases he : page_error gs bs (fetch p) with
    | none =>
      have hstep : page_step gs bs fetch (db, log) p = (db2, log) := by
        simp only [page_step]
        rw [heq, he]
      rw [hstep]
      obtain ⟨ih1, ih2⟩ := ih db2 log
      constructor
      · rw [ih1, hcp]
        simp only [pages_rows]
        simp [List.append_assoc]
      · rw [ih2]
        simp only [pages_log, he]
    | some e =>
      have hstep : page_step gs bs fetch (db, log) p = (db2, log ++ [(p, e)]) := by
        simp only [page_step]
        rw [heq, he]
      rw [hstep]
      obtain ⟨ih1, ih2⟩ := ih db2 (log ++ [(p, e)])
      constructor
      · rw [ih1, hcp]
        simp only [pages_rows]
        simp [List.append_assoc]
      · rw [ih2]
        simp only [pages_log, he]
        simp [List.append_assoc]

/-- C2 (amended): every page failure is caught at the page-processing
boundary and logged with the page number and its cause, and the run
continues through all remaining pages.  However, the store is not always
unchanged with respect to a failed page: the final store is exactly the
concatenation, over pages 0..last, of the rows each page inserted before
completing or failing — all rows of a successful page, none for a page whose
fetch raised, and the rows before the first failing record of a page that
failed mid-insert, which remain in the open transaction and are committed by
a later commit. -/
theorem c2_page_failure_amended (gs bs : List (List Char))
    (fetch : Nat → Option (List RawSneaker)) (last : Nat) :
    final_store (load_sneakers_safely gs bs fetch last ⟨[], []⟩).1 =
      pages_rows gs bs fetch (List.range (last + 1)) ∧
    (load_sneakers_safely gs bs fetch last ⟨[], []⟩).2 =
      pages_log gs bs fetch (List.range (last + 1)) := by
  obtain ⟨h1, h2⟩ :=
    load_fold_spec gs bs fetch (List.range (last + 1)) ⟨[], []⟩ []
  constructor
  · rw [load_sneakers_safely, final_store, db_commit]
    simp only []
    rw [h1]
    simp
  · rw [load_sneakers_safely, h2]
    simp

/-- C2 counterexample: in a two-page run where page 0 raises on its second
record, the exception is caught and logged for page 0, yet the row of the
failed page's first record (`raw_ok`, already inserted when the exception
hit) is present in the final store: the store is not unchanged with respect
to the failed page. -/
theorem c2_partial_page_counterexample :
    (load_sneakers_safely genders_ref brands_ref fetch_ce 1 ⟨[], []⟩).2 =
      [(0, .recordFailed .unknownGender)] ∧
    fetch_ce 0 = some [raw_ok, raw_bad] ∧
    insert_sneaker genders_ref brands_ref raw_ok = .ok (row_ok, ⟨false, false⟩) ∧
    row_ok ∈
      final_store (load_sneakers_safely genders_ref brands_ref fetch_ce 1 ⟨[], []⟩).1 :=
  ⟨by decide, by decide, by decide, by decide⟩

/-! ## Pagination lemmas -/

/-- C9: the pagination driver learns the total count from page 0, computes
lastPage = ceil(count / pageSize) - 1 and processes exactly pages
0..lastPage inclusive (a page is processed iff its number is at most
lastPage); for count 250 and page size 100, lastPage is 2 and exactly pages
0, 1, 2 are processed. -/
theorem c9_pagination_pages (api : Nat → PageResponse) (page_limit : Nat)
    (p : Nat) (hc : (api 0).count = 250) (hl : page_limit = 100) :
    ((load_sneakers api page_limit).map Prod.fst =
      List.range ((last_page_num (api 0).count page_limit + 1).toNat)) ∧
    (p ∈ (load_sneakers api page_limit).map Prod.fst ↔
      (p : Int) ≤ last_page_num (api 0).count page_limit) ∧
    last_page_num 250 100 = 2 ∧
    (load_sneakers api page_limit).map Prod.fst = [0, 1, 2] := by
  have hceil : last_page_num 250 100 = 2 := by
    have h : (⌈((250 : Nat) : Rat) / ((100 : Nat) : Rat)⌉ : Int) = 3 := by
      rw [Int.ceil_eq_iff]
      constructor <;> norm_num
    rw [last_page_num, h]
    decide
  have hmap : (load_sneakers api page_limit).map Prod.fst =
      List.range ((last_page_num (api 0).count page_limit + 1).toNat) := by
    simp only [load_sneakers]
    rw [List.map_map, show (Prod.fst ∘ fun q : Nat => (q, api q)) = id from rfl,
      List.map_id]
  refine ⟨hmap, ?_, hceil, ?_⟩
  · rw [hmap, List.mem_range]
    constructor
    · intro hp
      have h2 := Int.lt_toNat.mp hp
      omega
    · intro hp
      exact Int.lt_toNat.mpr (by omega)
  · rw [hmap, hc, hl, hceil]
    decide

theorem c9_pagination_pages_witness :
    ((load_sneakers api_const 100).map Prod.fst =
      List.range ((last_page_num (api_const 0).count 100 + 1).toNat)) ∧
    ((2 : Nat) ∈ (load_sneakers api_const 100).map Prod.fst ↔
      ((2 : Nat) : Int) ≤ last_page_num (api_const 0).count 100) ∧
    last_page_num 250 100 = 2 ∧
    (load_sneakers api_const 100).map Prod.fst = [0, 1, 2] :=
  c9_pagination_pages api_const 100 2 rfl rfl
